import Mathlib

/-!
Shallow embedding of the gorm-cursor-paginator pagination engine
(src/paginator/paginator.go and src/paginator/paginator_v1.go).

External collaborators (the cursor codec of the cursor package, the schema
resolver of internal/util, and the gorm query engine) are passed in as
function parameters, so every theorem quantifies over their behaviour.
Sentinel error values and the Order enum are declared in repository files
that are not part of src/ and are modelled from the spec where noted.
-/

namespace GCP

/-- Modelled from the spec: sort direction enum with values ASC and DESC;
`unset` stands for Go's zero string value before default resolution
(the file declaring the Order type is not under src/). -/
inductive Order where
  | asc
  | desc
  | unset
deriving DecidableEq, Repr

/-- Modelled from the spec: flip returns the opposite direction. -/
def Order.flip : Order → Order
  | .asc => .desc
  | .desc => .asc
  | .unset => .unset

/-- Go string form of an Order value: "ASC", "DESC", empty when unset. -/
def Order.goStr : Order → String
  | .asc => "ASC"
  | .desc => "DESC"
  | .unset => ""

/-- A decoded cursor value (a Go empty-interface value): an integer,
a string, or Go nil. -/
inductive Value where
  | vint (n : Int)
  | vstr (s : String)
  | vnull
deriving DecidableEq, Repr

instance : Inhabited Value := ⟨.vnull⟩

/-- Embeds the isNil helper of paginator.go: true exactly on the nil value. -/
def Value.isNil : Value → Bool
  | .vnull => true
  | _ => false

/-- Go fmt %v rendering of a value, as used when the NULL replacement is
spliced into a COALESCE expression. -/
def Value.goStr : Value → String
  | .vint n => toString n
  | .vstr s => s
  | .vnull => "<nil>"

/-- Modelled from the spec: the sentinel error values referenced by
paginator.go (their declaring file is not under src/); `extErr` stands for
any error produced by an external collaborator. -/
inductive PError where
  | ErrNoRule
  | ErrInvalidLimit
  | ErrInvalidOrder
  | ErrInvalidCursor
  | extErr (msg : String)
deriving DecidableEq, Repr

/-- Embeds the Rule struct: key, resolved SQL expression (empty string when
unresolved), optional SQL cast type, NULL replacement (Go nil modelled as
`Value.vnull`), and per-rule order (Go empty string modelled as unset). -/
structure Rule where
  Key : String
  SQLRepr : String
  SQLType : Option String
  NULLReplacement : Value
  Order : GCP.Order
deriving DecidableEq, Repr

instance : Inhabited Rule := ⟨⟨"", "", none, .vnull, .unset⟩⟩

/-- Embeds the Cursor struct: optional After and Before tokens. -/
structure Cursor where
  After : Option String
  Before : Option String
deriving DecidableEq, Repr

/-- Embeds the Paginator struct: cursor, rules, limit, default order. -/
structure Paginator where
  cursor : Cursor
  rules : List Rule
  limit : Int
  order : GCP.Order
deriving DecidableEq, Repr

/-- Embeds Paginator.isForward: the After cursor is present. -/
def Paginator.isForward (p : Paginator) : Bool :=
  p.cursor.After.isSome

/-- Embeds Paginator.isBackward: forward takes precedence over backward. -/
def Paginator.isBackward (p : Paginator) : Bool :=
  !p.isForward && p.cursor.Before.isSome

/-- Embeds the rule-validation loop of Paginator.validate: the first failing
rule's error is returned. The per-rule validator is external input. -/
def validateRules (rv : Rule → Except PError Unit) : List Rule → Except PError Unit
  | [] => .ok ()
  | r :: rs =>
    match rv r with
    | .error e => .error e
    | .ok _ => validateRules rv rs

/-- Embeds Paginator.validate: empty rule set, then non-positive limit, then
the order validator, then each rule in order. The order validator `ov` and
rule validator `rv` live outside src/ and are taken as parameters. -/
def Paginator.validate (ov : GCP.Order → Except PError Unit)
    (rv : Rule → Except PError Unit) (p : Paginator) : Except PError Unit :=
  if p.rules.length = 0 then .error .ErrNoRule
  else if p.limit ≤ 0 then .error .ErrInvalidLimit
  else
    match ov p.order with
    | .error e => .error e
    | .ok _ => validateRules rv p.rules

/-- Embeds the loop body of Paginator.setup. The schema parse result
`parseSchema` (fallible, fetched lazily at the first rule with an empty
SQLRepr) and the key-to-column lookup are external collaborators. The
string argument carries the memoized table name (empty = not yet fetched).
Note the COALESCE and CAST wrapping sit outside the `SQLRepr == ""` guard,
exactly as in the Go source. -/
def setupRules (parseSchema : Except PError String) (lookupKey : String → String)
    (dOrd : GCP.Order) : String → List Rule → Except PError (List Rule)
  | _, [] => .ok []
  | sqlTable, r :: rs =>
    let reprStep : Except PError (String × String) :=
      if r.SQLRepr = "" then
        if sqlTable = "" then
          match parseSchema with
          | .error e => .error e
          | .ok t => .ok (t ++ "." ++ lookupKey r.Key, t)
        else .ok (sqlTable ++ "." ++ lookupKey r.Key, sqlTable)
      else .ok (r.SQLRepr, sqlTable)
    match reprStep with
    | .error e => .error e
    | .ok (repr0, table) =>
      let repr1 :=
        if r.NULLReplacement.isNil then repr0
        else "COALESCE(" ++ repr0 ++ ", '" ++ r.NULLReplacement.goStr ++ "')"
      let repr2 :=
        match r.SQLType with
        | none => repr1
        | some ty => "CAST( " ++ repr1 ++ " AS " ++ ty ++ " )"
      let ord := if r.Order = .unset then dOrd else r.Order
      match setupRules parseSchema lookupKey dOrd table rs with
      | .error e => .error e
      | .ok rs2 => .ok ({ r with SQLRepr := repr2, Order := ord } :: rs2)

/-- Embeds Paginator.setup: runs the rule-resolution loop over all rules and
stores the resolved rules back on the paginator. -/
def Paginator.setup (parseSchema : Except PError String)
    (lookupKey : String → String) (p : Paginator) : Except PError Paginator :=
  match setupRules parseSchema lookupKey p.order "" p.rules with
  | .error e => .error e
  | .ok rs => .ok { p with rules := rs }

/-- Embeds the null-replacement loop of Paginator.DecodeCursor: position i of
the decoded tuple is replaced by rule i's NULLReplacement when it is nil.
An out-of-range rule index yields the zero rule (the Go loop would panic
there; no claim exercises that case). -/
def replaceNulls (rules : List Rule) : Nat → List Value → List Value
  | _, [] => []
  | i, v :: vs =>
    (if v.isNil then (rules.getD i default).NULLReplacement else v) ::
      replaceNulls rules (i + 1) vs

/-- Embeds Paginator.DecodeCursor: decode After when forward, else Before
when backward, else the empty tuple; any codec failure becomes
ErrInvalidCursor; then nil values are replaced per rule. The codec decoder
is an external collaborator passed as `decode`. -/
def Paginator.DecodeCursor (decode : String → Except PError (List Value))
    (p : Paginator) : Except PError (List Value) :=
  let raw : Except PError (List Value) :=
    if p.isForward then
      match decode (p.cursor.After.getD "") with
      | .error _ => .error .ErrInvalidCursor
      | .ok vs => .ok vs
    else if p.isBackward then
      match decode (p.cursor.Before.getD "") with
      | .error _ => .error .ErrInvalidCursor
      | .ok vs => .ok vs
    else .ok []
  match raw with
  | .error e => .error e
  | .ok vs => .ok (replaceNulls p.rules 0 vs)

/-- Embeds the loop of Paginator.BuildOrderSQL: one "expr ORDER" fragment per
rule, with the order flipped when traversing backward. -/
def buildOrders (bwd : Bool) : List Rule → List String
  | [] => []
  | r :: rs =>
    (r.SQLRepr ++ " " ++ (if bwd then r.Order.flip else r.Order).goStr) ::
      buildOrders bwd rs

/-- Embeds Paginator.BuildOrderSQL: the fragments joined with ", ". -/
def Paginator.BuildOrderSQL (p : Paginator) : String :=
  String.intercalate ", " (buildOrders p.isBackward p.rules)

/-- Embeds the comparator choice of Paginator.BuildCursorSQLQuery. -/
def opStr (fwd bwd : Bool) (r : Rule) : String :=
  if (fwd && (r.Order == Order.asc)) || (bwd && (r.Order == Order.desc)) then ">"
  else "<"

/-- Embeds the loop of Paginator.BuildCursorSQLQuery: the accumulator string
carries the equality fragments of all previous rules. -/
def buildQueries (fwd bwd : Bool) : String → List Rule → List String
  | _, [] => []
  | query, r :: rs =>
    (query ++ r.SQLRepr ++ " " ++ opStr fwd bwd r ++ " ?") ::
      buildQueries fwd bwd (query ++ r.SQLRepr ++ " = ? AND ") rs

/-- Embeds Paginator.BuildCursorSQLQuery: the clauses joined with " OR ". -/
def Paginator.BuildCursorSQLQuery (p : Paginator) : String :=
  String.intercalate " OR " (buildQueries p.isForward p.isBackward "" p.rules)

/-- Embeds the loop of BuildCursorSQLQueryArgs: for i = 1..n append the
prefix fields[0..i-1]. -/
def buildArgsAux (fields : List Value) : Nat → List Value
  | 0 => []
  | n + 1 => buildArgsAux fields n ++ fields.take (n + 1)

/-- Embeds Paginator.BuildCursorSQLQueryArgs (the receiver is unused in the
Go source). -/
def BuildCursorSQLQueryArgs (fields : List Value) : List Value :=
  buildArgsAux fields fields.length

/-- The query specification handed to the external query engine by
Paginator.AppendPagingQuery: the gorm Limit, Order and optional Where
calls, recorded as data. -/
structure PagingQuery where
  limit : Int
  orderBy : String
  whereQuery : Option (String × List Value)
deriving DecidableEq, Repr

/-- Embeds Paginator.AppendPagingQuery: always Limit(limit+1) and the ORDER
BY string; the WHERE clause with its args only when fields is non-empty. -/
def Paginator.AppendPagingQuery (p : Paginator) (fields : List Value) : PagingQuery :=
  ⟨p.limit + 1, p.BuildOrderSQL,
    if fields.length > 0 then some (p.BuildCursorSQLQuery, BuildCursorSQLQueryArgs fields)
    else none⟩

/-- Embeds Paginator.EncodeCursor: After from the last element when backward
or hasMore; Before from the first element when forward, or backward with
hasMore. The codec encoder is the external parameter `encode`. -/
def Paginator.EncodeCursor {α : Type} [Inhabited α]
    (encode : α → Except PError String) (p : Paginator)
    (elems : List α) (hasMore : Bool) : Except PError Cursor :=
  let aStep : Except PError (Option String) :=
    if p.isBackward || hasMore then
      match encode elems.getLast! with
      | .error e => .error e
      | .ok c => .ok (some c)
    else .ok none
  match aStep with
  | .error e => .error e
  | .ok aft =>
    let bStep : Except PError (Option String) :=
      if p.isForward || (hasMore && p.isBackward) then
        match encode elems.head! with
        | .error e => .error e
        | .ok c => .ok (some c)
      else .ok none
    match bStep with
    | .error e => .error e
    | .ok bef => .ok ⟨aft, bef⟩

/-- Embeds the trim-and-reverse block shared verbatim by Paginator.Paginate
and Paginator.GetCursor: hasMore when more than limit rows were fetched, in
which case the last row is dropped; backward traversal reverses the kept
rows. -/
def Paginator.trimForCursor {α : Type} (p : Paginator) (dest : List α) :
    List α × Bool :=
  let hasMore : Bool := decide (p.limit < (dest.length : Int))
  let kept := if hasMore then dest.dropLast else dest
  (if p.isBackward then kept.reverse else kept, hasMore)

/-- Embeds Paginator.GetCursor: for a non-empty slice, trim and reverse then
encode; for an empty slice, the zero Cursor. -/
def Paginator.GetCursor {α : Type} [Inhabited α]
    (encode : α → Except PError String) (p : Paginator) (dest : List α) :
    Except PError Cursor :=
  if dest.length > 0 then
    let tr := p.trimForCursor dest
    p.EncodeCursor encode tr.1 tr.2
  else .ok ⟨none, none⟩

/-- The three named results of Go's Paginator.Paginate: the query-engine
handle (present once Find ran, carrying the rows left in dest and the
handle's own Error field), the outgoing cursor, and the returned error. -/
structure PaginateOut (α : Type) where
  result : Option (List α × Option PError)
  c : Cursor
  err : Option PError
deriving DecidableEq, Repr

/-- Embeds Paginator.Paginate: validate, setup, decode the cursor, run the
external query, then trim, reverse and encode. A Find failure is recorded
on the result handle and the function returns with a nil error, exactly as
in the Go source. -/
def Paginator.Paginate {α : Type} [Inhabited α]
    (ov : GCP.Order → Except PError Unit) (rv : Rule → Except PError Unit)
    (parseSchema : Except PError String) (lookupKey : String → String)
    (decode : String → Except PError (List Value))
    (find : PagingQuery → Except PError (List α))
    (encode : α → Except PError String)
    (p : Paginator) : PaginateOut α :=
  match p.validate ov rv with
  | .error e => ⟨none, ⟨none, none⟩, some e⟩
  | .ok _ =>
    match p.setup parseSchema lookupKey with
    | .error e => ⟨none, ⟨none, none⟩, some e⟩
    | .ok p1 =>
      match p1.DecodeCursor decode with
      | .error e => ⟨none, ⟨none, none⟩, some e⟩
      | .ok fields =>
        match find (p1.AppendPagingQuery fields) with
        | .error e => ⟨some ([], some e), ⟨none, none⟩, none⟩
        | .ok rows =>
          if rows.length > 0 then
            let tr := p1.trimForCursor rows
            match p1.EncodeCursor encode tr.1 tr.2 with
            | .error e => ⟨some (tr.1, none), ⟨none, none⟩, some e⟩
            | .ok c => ⟨some (tr.1, none), c, none⟩
          else ⟨some (rows, none), ⟨none, none⟩, none⟩

/-!
Embedding of paginator_v1.go: the SqlPaginator embeds a Paginator and
re-implements DecodeCursor, EncodeCursor, BuildOrderSQL, BuildCursorSQLQuery
and BuildCursorSQLQueryArgs with its own method bodies. Each is translated
here independently from its own source text.
-/

/-- Embeds the SqlPaginator struct of paginator_v1.go, which embeds a
Paginator as its state. -/
structure SqlPaginator where
  toPaginator : Paginator
deriving DecidableEq, Repr

/-- Embeds SqlPaginator.isForward. -/
def SqlPaginator.isForward (p : SqlPaginator) : Bool :=
  p.toPaginator.cursor.After.isSome

/-- Embeds SqlPaginator.isBackward. -/
def SqlPaginator.isBackward (p : SqlPaginator) : Bool :=
  !p.isForward && p.toPaginator.cursor.Before.isSome

/-- Embeds the null-replacement loop of SqlPaginator.DecodeCursor. -/
def replaceNulls1 (rules : List Rule) : Nat → List Value → List Value
  | _, [] => []
  | i, v :: vs =>
    (if v.isNil then (rules.getD i default).NULLReplacement else v) ::
      replaceNulls1 rules (i + 1) vs

/-- Embeds SqlPaginator.DecodeCursor of paginator_v1.go. -/
def SqlPaginator.DecodeCursor (decode : String → Except PError (List Value))
    (p : SqlPaginator) : Except PError (List Value) :=
  let raw : Except PError (List Value) :=
    if p.isForward then
      match decode (p.toPaginator.cursor.After.getD "") with
      | .error _ => .error .ErrInvalidCursor
      | .ok vs => .ok vs
    else if p.isBackward then
      match decode (p.toPaginator.cursor.Before.getD "") with
      | .error _ => .error .ErrInvalidCursor
      | .ok vs => .ok vs
    else .ok []
  match raw with
  | .error e => .error e
  | .ok vs => .ok (replaceNulls1 p.toPaginator.rules 0 vs)

/-- Embeds the loop of SqlPaginator.BuildOrderSQL. -/
def buildOrders1 (bwd : Bool) : List Rule → List String
  | [] => []
  | r :: rs =>
    (r.SQLRepr ++ " " ++ (if bwd then r.Order.flip else r.Order).goStr) ::
      buildOrders1 bwd rs

/-- Embeds SqlPaginator.BuildOrderSQL of paginator_v1.go. -/
def SqlPaginator.BuildOrderSQL (p : SqlPaginator) : String :=
  String.intercalate ", " (buildOrders1 p.isBackward p.toPaginator.rules)

/-- Embeds the comparator choice of SqlPaginator.BuildCursorSQLQuery. -/
def opStr1 (fwd bwd : Bool) (r : Rule) : String :=
  if (fwd && (r.Order == Order.asc)) || (bwd && (r.Order == Order.desc)) then ">"
  else "<"

/-- Embeds the loop of SqlPaginator.BuildCursorSQLQuery. -/
def buildQueries1 (fwd bwd : Bool) : String → List Rule → List String
  | _, [] => []
  | query, r :: rs =>
    (query ++ r.SQLRepr ++ " " ++ opStr1 fwd bwd r ++ " ?") ::
      buildQueries1 fwd bwd (query ++ r.SQLRepr ++ " = ? AND ") rs

/-- Embeds SqlPaginator.BuildCursorSQLQuery of paginator_v1.go. -/
def SqlPaginator.BuildCursorSQLQuery (p : SqlPaginator) : String :=
  String.intercalate " OR " (buildQueries1 p.isForward p.isBackward "" p.toPaginator.rules)

/-- Embeds the loop of SqlPaginator.BuildCursorSQLQueryArgs. -/
def buildArgsAux1 (fields : List Value) : Nat → List Value
  | 0 => []
  | n + 1 => buildArgsAux1 fields n ++ fields.take (n + 1)

/-- Embeds SqlPaginator.BuildCursorSQLQueryArgs of paginator_v1.go. -/
def SqlBuildCursorSQLQueryArgs (fields : List Value) : List Value :=
  buildArgsAux1 fields fields.length

/-- Embeds SqlPaginator.EncodeCursor of paginator_v1.go. -/
def SqlPaginator.EncodeCursor {α : Type} [Inhabited α]
    (encode : α → Except PError String) (p : SqlPaginator)
    (elems : List α) (hasMore : Bool) : Except PError Cursor :=
  let aStep : Except PError (Option String) :=
    if p.isBackward || hasMore then
      match encode elems.getLast! with
      | .error e => .error e
      | .ok c => .ok (some c)
    else .ok none
  match aStep with
  | .error e => .error e
  | .ok aft =>
    let bStep : Except PError (Option String) :=
      if p.isForward || (hasMore && p.isBackward) then
        match encode elems.head! with
        | .error e => .error e
        | .ok c => .ok (some c)
      else .ok none
    match bStep with
    | .error e => .error e
    | .ok bef => .ok ⟨aft, bef⟩

/-!
Helper lemmas shared by several claims.
-/

theorem foldlAppend (l : List String) (a : String) :
    l.foldl (· ++ ·) a = a ++ l.foldl (· ++ ·) "" := by
  induction l generalizing a with
  | nil => simp [List.foldl, String.append_empty]
  | cons x xs ih =>
    simp only [List.foldl]
    rw [ih (a ++ x), ih ("" ++ x)]
    exact String.append_assoc a x (xs.foldl (· ++ ·) "")

theorem strJoin_cons (s : String) (l : List String) :
    String.join (s :: l) = s ++ String.join l := by
  simp only [String.join, List.foldl]
  exact foldlAppend l ("" ++ s)

theorem buildQueries_length (fwd bwd : Bool) (rules : List Rule) (pref : String) :
    (buildQueries fwd bwd pref rules).length = rules.length := by
  induction rules generalizing pref with
  | nil => rfl
  | cons r rs ih => simp [buildQueries, ih]

theorem buildQueries_getD (fwd bwd : Bool) (rules : List Rule) (pref : String)
    (i : Nat) (h : i < rules.length) :
    (buildQueries fwd bwd pref rules).getD i "" =
      pref ++ String.join ((rules.take i).map fun r => r.SQLRepr ++ " = ? AND ") ++
        ((rules.getD i default).SQLRepr ++ " " ++ opStr fwd bwd (rules.getD i default) ++ " ?") := by
  induction rules generalizing pref i with
  | nil => simp at h
  | cons r rs ih =>
    cases i with
    | zero =>
      simp only [buildQueries, List.getD_cons_zero, List.take_zero, List.map_nil,
        List.getD_cons_zero, String.append_assoc]
      rfl
    | succ n =>
      have hn : n < rs.length := by simpa using h
      simp only [buildQueries, List.getD_cons_succ]
      rw [ih (pref ++ r.SQLRepr ++ " = ? AND ") n hn]
      simp [List.take, strJoin_cons, String.append_assoc]

theorem buildArgsAux_eq (fields : List Value) (n : Nat) :
    buildArgsAux fields n = ((List.range n).map fun i => fields.take (i + 1)).flatten := by
  induction n with
  | zero => rfl
  | succ m ih =>
    rw [buildArgsAux, ih, List.range_succ]
    simp [List.flatten_append]

theorem replaceNulls_length (rules : List Rule) (j : Nat) (vs : List Value) :
    (replaceNulls rules j vs).length = vs.length := by
  induction vs generalizing j with
  | nil => rfl
  | cons v vs ih => simp [replaceNulls, ih]

theorem replaceNulls_getD (rules : List Rule) (vs : List Value) (j i : Nat)
    (h : i < vs.length) :
    (replaceNulls rules j vs).getD i default =
      (if (vs.getD i default).isNil
       then (rules.getD (j + i) default).NULLReplacement
       else vs.getD i default) := by
  induction vs generalizing j i with
  | nil => simp at h
  | cons v vs ih =>
    cases i with
    | zero => simp [replaceNulls]
    | succ n =>
      have hn : n < vs.length := by simpa using h
      have := ih (j + 1) n hn
      simp only [replaceNulls, List.getD_cons_succ]
      rw [this]
      have harith : j + 1 + n = j + (n + 1) := by omega
      rw [harith]

/-!
Claim theorems.
-/

/-- C1: for every rule set and decoded value tuple, the cursor WHERE
predicate is the disjunction, joined by " OR ", whose clause i is the
concatenation of equality placeholders for rules 0..i-1 followed by a
comparator placeholder on rule i; the comparator is ">" exactly when the
traversal is forward and rule i's Order is ASC, or backward and rule i's
Order is DESC, and "<" otherwise; and the positional argument list is the
concatenation over clauses i of the value prefix values[0..i]. -/
theorem C1_seek_predicate_and_args (p : Paginator) (fields : List Value) :
    p.BuildCursorSQLQuery =
      String.intercalate " OR " (buildQueries p.isForward p.isBackward "" p.rules) ∧
    (buildQueries p.isForward p.isBackward "" p.rules).length = p.rules.length ∧
    (∀ i, i < p.rules.length →
      (buildQueries p.isForward p.isBackward "" p.rules).getD i "" =
        String.join ((p.rules.take i).map fun r => r.SQLRepr ++ " = ? AND ") ++
          ((p.rules.getD i default).SQLRepr ++ " " ++
            (if (p.isForward && ((p.rules.getD i default).Order == Order.asc)) ||
                (p.isBackward && ((p.rules.getD i default).Order == Order.desc))
             then ">" else "<") ++ " ?")) ∧
    BuildCursorSQLQueryArgs fields =
      ((List.range fields.length).map fun i => fields.take (i + 1)).flatten := by
  refine ⟨rfl, buildQueries_length p.isForward p.isBackward p.rules "",
    fun i h => ?_, buildArgsAux_eq fields fields.length⟩
  rw [buildQueries_getD p.isForward p.isBackward p.rules "" i h]
  rfl

/-- Concrete paginator used by the C1 witness: three ASC rules, forward. -/
def pC1 : Paginator :=
  ⟨⟨some "tok", none⟩,
    [⟨"a", "t.a", none, .vnull, .asc⟩, ⟨"b", "t.b", none, .vnull, .asc⟩,
      ⟨"c", "t.c", none, .vnull, .asc⟩], 10, .asc⟩

/-- C1 witness: the third clause and the argument list at a concrete
three-rule forward paginator with decoded values (1, 2, 3). -/
theorem C1_seek_predicate_and_args_witness :
    (buildQueries pC1.isForward pC1.isBackward "" pC1.rules).getD 2 "" =
      "t.a = ? AND t.b = ? AND t.c > ?" ∧
    BuildCursorSQLQueryArgs [.vint 1, .vint 2, .vint 3] =
      [.vint 1, .vint 1, .vint 2, .vint 1, .vint 2, .vint 3] := by
  constructor
  · rw [(C1_seek_predicate_and_args pC1 []).2.2.1 2 (by decide)]
    rfl
  · rw [(C1_seek_predicate_and_args pC1 [.vint 1, .vint 2, .vint 3]).2.2.2]
    rfl

/-- C2: for every result slice, EncodeCursor emits an After token encoding
the last row exactly when the traversal is backward or hasMore holds, and a
Before token encoding the first row exactly when the traversal is forward or
(backward and hasMore); a GetCursor call on an empty slice emits neither
token, and Paginate run against a query returning no rows emits neither
token. -/
theorem C2_encode_cursor_emission :
    (∀ (p : Paginator) (f : Nat → String) (elems : List Nat) (hasMore : Bool),
      p.EncodeCursor (fun r => .ok (f r)) elems hasMore =
        .ok ⟨(if p.isBackward || hasMore then some (f elems.getLast!) else none),
             (if p.isForward || (hasMore && p.isBackward) then some (f elems.head!)
              else none)⟩) ∧
    (∀ (p : Paginator) (encode : Nat → Except PError String),
      p.GetCursor encode ([] : List Nat) = .ok ⟨none, none⟩) ∧
    (∀ (p : Paginator) ov rv parseSchema lookupKey decode
        (encode : Nat → Except PError String),
      (p.Paginate ov rv parseSchema lookupKey decode
          (fun _ => .ok ([] : List Nat)) encode).c = ⟨none, none⟩) := by
  refine ⟨fun p f elems hasMore => ?_, fun p encode => rfl,
    fun p ov rv parseSchema lookupKey decode encode => ?_⟩
  · simp only [Paginator.EncodeCursor]
    by_cases h1 : (p.isBackward || hasMore) = true <;>
      by_cases h2 : (p.isForward || (hasMore && p.isBackward)) = true <;>
        simp [h1, h2]
  · cases hv : p.validate ov rv with
    | error e => simp [Paginator.Paginate, hv]
    | ok u =>
      cases hs : p.setup parseSchema lookupKey with
      | error e => simp [Paginator.Paginate, hv, hs]
      | ok p1 =>
        cases hd : p1.DecodeCursor decode with
        | error e => simp [Paginator.Paginate, hv, hs, hd]
        | ok fields => simp [Paginator.Paginate, hv, hs, hd]

/-- C3: trimming a fetched row slice records hasMore exactly when more than
limit rows came back, in which case the last (sentinel) row is dropped and
otherwise nothing is dropped; a backward traversal reverses the kept rows
into forward display order; and when exactly limit+1 rows (a sentinel) came
back under a positive limit, the returned page has exactly limit rows and is
the reversal-adjusted slice without the sentinel. -/
theorem C3_trim_and_reverse {α : Type} (p : Paginator) (dest : List α) :
    ((p.trimForCursor dest).2 = true ↔ p.limit < (dest.length : Int)) ∧
    (p.limit < (dest.length : Int) →
      (p.trimForCursor dest).1 =
        (if p.isBackward then (dest.take (dest.length - 1)).reverse
         else dest.take (dest.length - 1))) ∧
    (¬ p.limit < (dest.length : Int) →
      (p.trimForCursor dest).1 = (if p.isBackward then dest.reverse else dest)) ∧
    (0 < p.limit → (dest.length : Int) = p.limit + 1 →
      ((p.trimForCursor dest).1.length : Int) = p.limit ∧
      (p.trimForCursor dest).1 =
        (if p.isBackward then dest.dropLast.reverse else dest.dropLast)) := by
  refine ⟨?_, fun h => ?_, fun h => ?_, fun hpos hlen => ⟨?_, ?_⟩⟩
  · simp [Paginator.trimForCursor]
  · simp [Paginator.trimForCursor, h, List.dropLast_eq_take]
  · simp [Paginator.trimForCursor, h]
  · have h : p.limit < (dest.length : Int) := by omega
    by_cases hb : p.isBackward = true <;>
      simp [Paginator.trimForCursor, h, hb, List.length_dropLast] <;> omega
  · have h : p.limit < (dest.length : Int) := by omega
    simp [Paginator.trimForCursor, h]

/-- Concrete paginator used by the C3 witness: backward traversal, limit 2. -/
def pC3 : Paginator :=
  ⟨⟨none, some "tok"⟩, [⟨"a", "t.a", none, .vnull, .asc⟩], 2, .asc⟩

/-- C3 witness: three fetched rows against limit 2, traversing backward:
hasMore holds and the page is the first two rows reversed. -/
theorem C3_trim_and_reverse_witness :
    (pC3.trimForCursor [10, 20, 30]).1 = [20, 10] ∧
    (pC3.trimForCursor [10, 20, 30]).2 = true := by
  constructor
  · rw [(C3_trim_and_reverse pC3 [10, 20, 30]).2.1 (by decide)]
    rfl
  · exact (C3_trim_and_reverse pC3 [10, 20, 30]).1.mpr (by decide)

/-- C4: the constructed query always carries the row limit limit+1 and an
ORDER BY list with one expression-direction entry per rule in rule order,
each direction being the rule's Order flipped exactly when the traversal is
backward; and a WHERE predicate with its argument list is attached if and
only if the decoded field tuple is non-empty. -/
theorem C4_paging_query_shape (p : Paginator) (fields : List Value) :
    (p.AppendPagingQuery fields).limit = p.limit + 1 ∧
    buildOrders p.isBackward p.rules =
      p.rules.map
        (fun r => r.SQLRepr ++ " " ++ (if p.isBackward then r.Order.flip else r.Order).goStr) ∧
    (p.AppendPagingQuery fields).orderBy =
      String.intercalate ", "
        (p.rules.map fun r =>
          r.SQLRepr ++ " " ++ (if p.isBackward then r.Order.flip else r.Order).goStr) ∧
    ((p.AppendPagingQuery fields).whereQuery.isSome ↔ fields ≠ []) ∧
    (p.AppendPagingQuery fields).whereQuery =
      (if fields ≠ [] then some (p.BuildCursorSQLQuery, BuildCursorSQLQueryArgs fields)
       else none) := by
  have hmap : ∀ (bwd : Bool) (rules : List Rule), buildOrders bwd rules =
      rules.map (fun r => r.SQLRepr ++ " " ++ (if bwd then r.Order.flip else r.Order).goStr) := by
    intro bwd rules
    induction rules with
    | nil => rfl
    | cons r rs ih => simp [buildOrders, ih]
  have hne : (fields.length > 0) ↔ fields ≠ [] := by
    cases fields <;> simp
  refine ⟨rfl, hmap p.isBackward p.rules, ?_, ?_, ?_⟩
  · simp only [Paginator.AppendPagingQuery, Paginator.BuildOrderSQL]
    rw [hmap]
  · simp only [Paginator.AppendPagingQuery]
    by_cases hf : fields = []
    · simp [hf]
    · simp [hf, List.length_pos.mpr hf]
  · simp only [Paginator.AppendPagingQuery]
    by_cases hf : fields = []
    · simp [hf]
    · simp [hf, List.length_pos.mpr hf]

/-- C5: DecodeCursor decodes the After token whenever After is present (even
when Before is also set), else the Before token when Before is present, else
yields the empty tuple; any codec failure surfaces as ErrInvalidCursor; and
after decoding, each nil position is replaced by that position's rule's
NULLReplacement, which is itself the nil value when no replacement is
configured, so the position is then left absent. -/
theorem C5_decode_dispatch (p : Paginator) (decode : String → Except PError (List Value)) :
    (∀ a, p.cursor.After = some a →
      p.DecodeCursor decode =
        (match decode a with
         | .error _ => .error PError.ErrInvalidCursor
         | .ok vs => .ok (replaceNulls p.rules 0 vs))) ∧
    (∀ b, p.cursor.After = none → p.cursor.Before = some b →
      p.DecodeCursor decode =
        (match decode b with
         | .error _ => .error PError.ErrInvalidCursor
         | .ok vs => .ok (replaceNulls p.rules 0 vs))) ∧
    (p.cursor.After = none → p.cursor.Before = none →
      p.DecodeCursor decode = .ok []) ∧
    (∀ vs, (replaceNulls p.rules 0 vs).length = vs.length) ∧
    (∀ vs i, i < vs.length →
      (replaceNulls p.rules 0 vs).getD i default =
        (if (vs.getD i default).isNil
         then (p.rules.getD i default).NULLReplacement
         else vs.getD i default)) := by
  refine ⟨fun a ha => ?_, fun b ha hb => ?_, fun ha hb => ?_,
    fun vs => replaceNulls_length p.rules 0 vs, fun vs i h => ?_⟩
  · cases hd : decode a <;>
      simp [Paginator.DecodeCursor, Paginator.isForward, ha, hd]
  · cases hd : decode b <;>
      simp [Paginator.DecodeCursor, Paginator.isForward, Paginator.isBackward, ha, hb, hd]
  · simp [Paginator.DecodeCursor, Paginator.isForward, Paginator.isBackward, ha, hb,
      replaceNulls]
  · have := replaceNulls_getD p.rules vs 0 i h
    simpa using this

/-- Concrete paginator used by the C5 witness: both cursors set, one rule
with a NULL replacement and one without. -/
def pC5 : Paginator :=
  ⟨⟨some "aft", some "bef"⟩,
    [⟨"a", "t.a", none, .vint 0, .asc⟩, ⟨"b", "t.b", none, .vnull, .asc⟩], 5, .asc⟩

/-- C5 witness: with both tokens set the After token is decoded, and the nil
position backed by a configured replacement becomes that replacement while
the nil position without one stays absent. -/
theorem C5_decode_dispatch_witness :
    pC5.DecodeCursor (fun t => if t = "aft" then .ok [.vnull, .vnull] else .error (.extErr "x")) =
      .ok [.vint 0, .vnull] := by
  rw [(C5_decode_dispatch pC5
    (fun t => if t = "aft" then .ok [.vnull, .vnull] else .error (.extErr "x"))).1 "aft" rfl]
  rfl

/-- Concrete paginator used by the C6 evaluation: a single key-resolved rule
carrying a NULL replacement. -/
def pC6 : Paginator :=
  ⟨⟨none, none⟩, [⟨"id", "", none, .vstr "0", .asc⟩], 10, .asc⟩

/-- C6: evaluation of setup at a rule with a NULL replacement. The first
setup run resolves the expression to COALESCE(t.id, '0'); running setup a
second time wraps it again into COALESCE(COALESCE(t.id, '0'), '0'), so the
resolved state after the second run differs from the state after the first
run and the re-wrap claimed impossible does happen. -/
theorem C6_setup_rewraps_null_replacement :
    (pC6.setup (Except.ok "t") (fun k => k)).map (fun q => q.rules.map Rule.SQLRepr) =
      .ok ["COALESCE(t.id, '0')"] ∧
    ((pC6.setup (Except.ok "t") (fun k => k)).bind
        (fun q => q.setup (Except.ok "t") (fun k => k))).map
        (fun q => q.rules.map Rule.SQLRepr) =
      .ok ["COALESCE(COALESCE(t.id, '0'), '0')"] ∧
    ("COALESCE(COALESCE(t.id, '0'), '0')" : String) ≠ "COALESCE(t.id, '0')" := by
  refine ⟨rfl, rfl, by decide⟩

/-- C7: for a rule with no pre-supplied expression, setup resolves the
column expression from the key first, wraps it in COALESCE with the NULL
replacement next, and applies the CAST last and outermost, yielding
CAST( COALESCE(table.column, 'replacement') AS type ); a rule whose Order is
unset inherits the paginator default. -/
theorem C7_resolution_order (table ty : String) (lookupKey : String → String)
    (cur : Cursor) (lim : Int) (dOrd : GCP.Order) (r : Rule)
    (hrepr : r.SQLRepr = "") (hty : r.SQLType = some ty)
    (hnull : r.NULLReplacement.isNil = false) :
    (Paginator.mk cur [r] lim dOrd).setup (Except.ok table) lookupKey =
      .ok (Paginator.mk cur
        [{ r with
            SQLRepr := "CAST( COALESCE(" ++ table ++ "." ++ lookupKey r.Key ++ ", '" ++
              r.NULLReplacement.goStr ++ "') AS " ++ ty ++ " )",
            Order := if r.Order = .unset then dOrd else r.Order }]
        lim dOrd) := by
  simp [Paginator.setup, setupRules, hrepr, hty, hnull, String.append_assoc]
  rw [← String.append_assoc "CAST( " "COALESCE("]
  rfl

/-- C7 witness: a concrete rule with key "n", replacement 0 and cast type
"decimal", default order DESC, resolves to the CAST-outside-COALESCE shape
and inherits the DESC default. -/
theorem C7_resolution_order_witness :
    (Paginator.mk ⟨none, none⟩ [⟨"n", "", some "decimal", .vint 0, .unset⟩] 3 .desc).setup
        (Except.ok "t") (fun k => k) =
      .ok (Paginator.mk ⟨none, none⟩
        [⟨"n", "CAST( COALESCE(t.n, '0') AS decimal )", some "decimal", .vint 0, .desc⟩]
        3 .desc) := by
  rw [C7_resolution_order "t" "decimal" (fun k => k) ⟨none, none⟩ 3 .desc
    ⟨"n", "", some "decimal", .vint 0, .unset⟩ rfl rfl rfl]
  rfl

theorem validateRules_all_ok (rv : Rule → Except PError Unit) (l : List Rule)
    (h : ∀ r ∈ l, rv r = .ok ()) : validateRules rv l = .ok () := by
  induction l with
  | nil => rfl
  | cons r rs ih =>
    have hr := h r (by simp)
    simp [validateRules, hr, ih (fun r' hr' => h r' (by simp [hr']))]

theorem validateRules_first_error (rv : Rule → Except PError Unit)
    (l1 : List Rule) (r : Rule) (l2 : List Rule) (e : PError)
    (h1 : ∀ r' ∈ l1, rv r' = .ok ()) (hr : rv r = .error e) :
    validateRules rv (l1 ++ r :: l2) = .error e := by
  induction l1 with
  | nil => simp [validateRules, hr]
  | cons x xs ih =>
    have hx := h1 x (by simp)
    simp [validateRules, hx, ih (fun r' hr' => h1 r' (by simp [hr']))]

/-- C8: validation reports NoRule for an empty rule set (even when the limit
is also non-positive), then InvalidLimit for a non-positive limit, then the
order validator's error, then the first failing rule's error, in exactly
that order, and succeeds when no check fails. -/
theorem C8_validate_check_order (ov : GCP.Order → Except PError Unit)
    (rv : Rule → Except PError Unit) (p : Paginator) :
    (p.rules = [] → p.validate ov rv = .error .ErrNoRule) ∧
    (p.rules ≠ [] → p.limit ≤ 0 → p.validate ov rv = .error .ErrInvalidLimit) ∧
    (∀ e, p.rules ≠ [] → 0 < p.limit → ov p.order = .error e →
      p.validate ov rv = .error e) ∧
    (∀ e l1 r l2, p.rules ≠ [] → 0 < p.limit → ov p.order = .ok () →
      p.rules = l1 ++ r :: l2 → (∀ r' ∈ l1, rv r' = .ok ()) → rv r = .error e →
      p.validate ov rv = .error e) ∧
    (p.rules ≠ [] → 0 < p.limit → ov p.order = .ok () →
      (∀ r ∈ p.rules, rv r = .ok ()) → p.validate ov rv = .ok ()) := by
  refine ⟨fun h => ?_, fun h hl => ?_, fun e h hl hov => ?_,
    fun e l1 r l2 h hl hov hrules h1 hr => ?_, fun h hl hov hall => ?_⟩
  · simp [Paginator.validate, h]
  · have hn : ¬ p.rules.length = 0 := by simpa [List.length_eq_zero] using h
    simp [Paginator.validate, hn, hl]
  · have hn : ¬ p.rules.length = 0 := by simpa [List.length_eq_zero] using h
    have hnl : ¬ p.limit ≤ 0 := by omega
    simp [Paginator.validate, hn, hnl, hov]
  · have hn : ¬ p.rules.length = 0 := by simpa [List.length_eq_zero] using h
    have hnl : ¬ p.limit ≤ 0 := by omega
    simp only [Paginator.validate, hn, hnl, hov, if_false, if_neg]
    rw [hrules]
    exact validateRules_first_error rv l1 r l2 e h1 hr
  · have hn : ¬ p.rules.length = 0 := by simpa [List.length_eq_zero] using h
    have hnl : ¬ p.limit ≤ 0 := by omega
    simp only [Paginator.validate, hn, hnl, hov, if_false, if_neg]
    exact validateRules_all_ok rv p.rules hall

/-- Concrete paginator used by the C8 witness: no rules and a negative
limit. -/
def pC8 : Paginator := ⟨⟨none, none⟩, [], -5, .asc⟩

/-- C8 witness: an empty rule set together with a negative limit reports
NoRule, not InvalidLimit. -/
theorem C8_validate_check_order_witness :
    pC8.validate (fun _ => .ok ()) (fun _ => .ok ()) = .error .ErrNoRule :=
  (C8_validate_check_order (fun _ => .ok ()) (fun _ => .ok ()) pC8).1 rfl

/-- Concrete paginator used by the C9 counterexample: one fully resolved
rule, limit 1, no incoming cursor. -/
def pC9 : Paginator := ⟨⟨none, none⟩, [⟨"id", "t.id", none, .vnull, .asc⟩], 1, .asc⟩

/-- C9 counterexample: when the external query execution fails, Paginate's
returned error value is nil — the failure sits only on the returned result
handle's Error field — refuting the claim that the error return value
reports the execution failure. -/
theorem C9_find_error_leaves_err_nil :
    (pC9.Paginate (fun _ => .ok ()) (fun _ => .ok ()) (Except.ok "t") (fun k => k)
        (fun _ => .ok []) (fun _ => Except.error (PError.extErr "query failed"))
        (fun (_ : Nat) => .ok "tok")).err = none ∧
    (pC9.Paginate (fun _ => .ok ()) (fun _ => .ok ()) (Except.ok "t") (fun k => k)
        (fun _ => .ok []) (fun _ => Except.error (PError.extErr "query failed"))
        (fun (_ : Nat) => .ok "tok")).result =
      some ([], some (PError.extErr "query failed")) :=
  ⟨rfl, rfl⟩

/-- C9 (amended): a failure at validation, setup, cursor decoding or cursor
encoding is surfaced as Paginate's returned error with no partial result; a
validation failure makes the outcome independent of the query engine, so no
query is observed; and a query-execution failure aborts with no cursor but
is surfaced on the returned result handle's Error field while the returned
error value stays nil. -/
theorem C9_error_flow {α : Type} [Inhabited α]
    (ov : GCP.Order → Except PError Unit) (rv : Rule → Except PError Unit)
    (ps : Except PError String) (lk : String → String)
    (decode : String → Except PError (List Value))
    (encode : α → Except PError String) (p : Paginator) :
    (∀ e (find find' : PagingQuery → Except PError (List α)),
      p.validate ov rv = .error e →
      p.Paginate ov rv ps lk decode find encode =
        p.Paginate ov rv ps lk decode find' encode ∧
      p.Paginate ov rv ps lk decode find encode = ⟨none, ⟨none, none⟩, some e⟩) ∧
    (∀ e (find : PagingQuery → Except PError (List α)),
      p.validate ov rv = .ok () → p.setup ps lk = .error e →
      p.Paginate ov rv ps lk decode find encode = ⟨none, ⟨none, none⟩, some e⟩) ∧
    (∀ e p1 (find : PagingQuery → Except PError (List α)),
      p.validate ov rv = .ok () → p.setup ps lk = .ok p1 →
      p1.DecodeCursor decode = .error e →
      p.Paginate ov rv ps lk decode find encode = ⟨none, ⟨none, none⟩, some e⟩) ∧
    (∀ e p1 fields (find : PagingQuery → Except PError (List α)),
      p.validate ov rv = .ok () → p.setup ps lk = .ok p1 →
      p1.DecodeCursor decode = .ok fields →
      find (p1.AppendPagingQuery fields) = .error e →
      p.Paginate ov rv ps lk decode find encode =
        ⟨some ([], some e), ⟨none, none⟩, none⟩) ∧
    (∀ e p1 fields rows (find : PagingQuery → Except PError (List α)),
      p.validate ov rv = .ok () → p.setup ps lk = .ok p1 →
      p1.DecodeCursor decode = .ok fields →
      find (p1.AppendPagingQuery fields) = .ok rows → rows.length > 0 →
      p1.EncodeCursor encode (p1.trimForCursor rows).1 (p1.trimForCursor rows).2 =
        .error e →
      p.Paginate ov rv ps lk decode find encode =
        ⟨some ((p1.trimForCursor rows).1, none), ⟨none, none⟩, some e⟩) := by
  refine ⟨fun e find find' hv => ⟨?_, ?_⟩, fun e find hv hs => ?_,
    fun e p1 find hv hs hd => ?_, fun e p1 fields find hv hs hd hf => ?_,
    fun e p1 fields rows find hv hs hd hf hlen henc => ?_⟩
  · simp [Paginator.Paginate, hv]
  · simp [Paginator.Paginate, hv]
  · simp [Paginator.Paginate, hv, hs]
  · simp [Paginator.Paginate, hv, hs, hd]
  · simp [Paginator.Paginate, hv, hs, hd, hf]
  · simp [Paginator.Paginate, hv, hs, hd, hf, hlen, henc]

/-- Concrete paginator used by the C9 witness: empty rule set, so validation
fails with NoRule before any query runs. -/
def pC9w : Paginator := ⟨⟨none, none⟩, [], 1, .asc⟩

/-- C9 witness: with failing validation the returned error is NoRule and the
result handle is absent, independently of what the query engine would have
returned. -/
theorem C9_error_flow_witness :
    pC9w.Paginate (fun _ => .ok ()) (fun _ => .ok ()) (Except.ok "t") (fun k => k)
        (fun _ => .ok []) (fun _ => Except.ok ([3] : List Nat)) (fun _ => .ok "tok") =
      ⟨none, ⟨none, none⟩, some .ErrNoRule⟩ :=
  ((C9_error_flow (fun _ => .ok ()) (fun _ => .ok ()) (Except.ok "t") (fun k => k)
      (fun _ => .ok []) (fun _ => .ok "tok") pC9w).1 .ErrNoRule
      (fun _ => Except.ok ([3] : List Nat)) (fun _ => Except.ok ([] : List Nat)) rfl).2

theorem sqlIsForward_eq (sp : SqlPaginator) : sp.isForward = sp.toPaginator.isForward :=
  rfl

theorem sqlIsBackward_eq (sp : SqlPaginator) : sp.isBackward = sp.toPaginator.isBackward :=
  rfl

theorem buildOrders1_eq (bwd : Bool) (rules : List Rule) :
    buildOrders1 bwd rules = buildOrders bwd rules := by
  induction rules with
  | nil => rfl
  | cons r rs ih => simp [buildOrders1, buildOrders, ih]

theorem opStr1_eq (fwd bwd : Bool) (r : Rule) : opStr1 fwd bwd r = opStr fwd bwd r :=
  rfl

theorem buildQueries1_eq (fwd bwd : Bool) (rules : List Rule) (pref : String) :
    buildQueries1 fwd bwd pref rules = buildQueries fwd bwd pref rules := by
  induction rules generalizing pref with
  | nil => rfl
  | cons r rs ih => simp [buildQueries1, buildQueries, ih, opStr1_eq]

theorem buildArgsAux1_eq (fields : List Value) (n : Nat) :
    buildArgsAux1 fields n = buildArgsAux fields n := by
  induction n with
  | zero => rfl
  | succ m ih => simp [buildArgsAux1, buildArgsAux, ih]

theorem replaceNulls1_eq (rules : List Rule) (j : Nat) (vs : List Value) :
    replaceNulls1 rules j vs = replaceNulls rules j vs := by
  induction vs generalizing j with
  | nil => rfl
  | cons v vs ih => simp [replaceNulls1, replaceNulls, ih]

/-- C10: on identical configuration the SqlPaginator methods of
paginator_v1.go agree exactly with the corresponding Paginator methods of
paginator.go: order clause, cursor predicate, argument list, cursor
decoding and cursor encoding. -/
theorem C10_sql_paginator_agrees (sp : SqlPaginator) :
    sp.BuildOrderSQL = sp.toPaginator.BuildOrderSQL ∧
    sp.BuildCursorSQLQuery = sp.toPaginator.BuildCursorSQLQuery ∧
    (∀ fields, SqlBuildCursorSQLQueryArgs fields = BuildCursorSQLQueryArgs fields) ∧
    (∀ decode, sp.DecodeCursor decode = sp.toPaginator.DecodeCursor decode) ∧
    (∀ (α : Type) (_inst : Inhabited α) (encode : α → Except PError String)
        (elems : List α) (hasMore : Bool),
      sp.EncodeCursor encode elems hasMore =
        sp.toPaginator.EncodeCursor encode elems hasMore) := by
  refine ⟨?_, ?_, fun fields => ?_, fun decode => ?_,
    fun α _inst encode elems hasMore => rfl⟩
  · simp only [SqlPaginator.BuildOrderSQL, Paginator.BuildOrderSQL,
      buildOrders1_eq, sqlIsBackward_eq]
  · simp only [SqlPaginator.BuildCursorSQLQuery, Paginator.BuildCursorSQLQuery,
      buildQueries1_eq, sqlIsForward_eq, sqlIsBackward_eq]
  · simp only [SqlBuildCursorSQLQueryArgs, BuildCursorSQLQueryArgs, buildArgsAux1_eq]
  · simp only [SqlPaginator.DecodeCursor, Paginator.DecodeCursor,
      replaceNulls1_eq, sqlIsForward_eq, sqlIsBackward_eq]

end GCP
